import Mathlib

/-!
Shallow embedding of the webidentity-rs library (src/sign.rs, src/identity.rs,
src/resolve.rs, src/error.rs) and proofs about its specification claims.

Conventions of the embedding:
* Rust byte slices become `List Nat` (each entry a byte value).
* External cryptographic primitives (SHA-256 from the sha2 crate, Ed25519 key
  validation and signature verification from ed25519-dalek, URL parsing and
  joining from the url crate, and the lol_html HTML tokenizer) are not part of
  this repository; they appear as explicit function parameters, and theorems
  quantify over them.  The HTML tokenizer's output is modelled as a list of
  element events (`HtmlEvent`), exactly the data the element handlers in
  identity.rs consume.
* Rust `u64` arithmetic uses `Nat` with explicit bounds where overflow matters
  (`parseU64` rejects values of 2 ^ 64 or more, as Rust `str::parse::<u64>`
  does); `u64::saturating_sub` is `Nat` subtraction, which is saturating.
-/

/-- Byte-wise hex decoding, modelling `hex::decode` from the hex crate:
fails on odd length or any non-hex character. -/
def hexDigitVal (c : Char) : Option Nat :=
  if ('0' ≤ c ∧ c ≤ '9') then some (c.toNat - '0'.toNat)
  else if ('a' ≤ c ∧ c ≤ 'f') then some (c.toNat - 'a'.toNat + 10)
  else if ('A' ≤ c ∧ c ≤ 'F') then some (c.toNat - 'A'.toNat + 10)
  else none

/-- Decode a list of hex characters two at a time. -/
def hexDecodeList : List Char → Option (List Nat)
  | [] => some []
  | [_] => none
  | c1 :: c2 :: rest =>
    match hexDigitVal c1, hexDigitVal c2, hexDecodeList rest with
    | some hi, some lo, some tail => some ((16 * hi + lo) :: tail)
    | _, _, _ => none

/-- `hex::decode` on a string. -/
def hexDecode (s : String) : Option (List Nat) :=
  hexDecodeList s.toList

/-- Lowercase hex digit for a value below 16, as the hex crate emits. -/
def hexDigitChar (n : Nat) : Char :=
  if n < 10 then Char.ofNat ('0'.toNat + n) else Char.ofNat ('a'.toNat + n - 10)

/-- Encode a byte list as lowercase hex characters. -/
def hexEncodeList : List Nat → List Char
  | [] => []
  | b :: rest => hexDigitChar (b / 16 % 16) :: hexDigitChar (b % 16) :: hexEncodeList rest

/-- `hex::encode` on a byte list. -/
def hexEncode (l : List Nat) : String :=
  String.mk (hexEncodeList l)

/-- Rust `str::parse::<u64>`: an optional leading plus sign, then one or more
ASCII digits, value below 2 ^ 64. -/
def parseU64 (s : String) : Option Nat :=
  let cs := s.toList
  let ds := match cs with
    | '+' :: rest => rest
    | _ => cs
  if ds.isEmpty then none
  else if ds.all Char.isDigit then
    let v := ds.foldl (fun acc c => acc * 10 + (c.toNat - '0'.toNat)) 0
    if v < 2 ^ 64 then some v else none
  else none

/-- Rust `str::trim_end_matches('/')`: remove every trailing slash. -/
def trimEndSlashes (s : String) : String :=
  String.mk ((s.toList.reverse.dropWhile (fun c => c = '/')).reverse)

/-- Character-wise uppercasing, modelling `str::to_uppercase` (the methods and
hosts in play are ASCII, where the two agree). -/
def toUppercase (s : String) : String :=
  String.mk (s.toList.map Char.toUpper)

/-- Rust `str::starts_with` on string literals. -/
def strStartsWith (s pre : String) : Bool :=
  List.isPrefixOf pre.toList s.toList

/-- Rust string slicing `s[n..]` at a character boundary. -/
def strDrop (s : String) (n : Nat) : String :=
  String.mk (s.toList.drop n)

/-- Substring containment on character lists (Rust `str::contains`). -/
def containsPat (pat : List Char) : List Char → Bool
  | [] => List.isPrefixOf pat []
  | c :: rest => List.isPrefixOf pat (c :: rest) || containsPat pat rest

/-- Rust `str::contains`. -/
def containsSub (s pat : String) : Bool :=
  containsPat pat.toList s.toList

/-- The characters before the first occurrence of `pat`, or the whole list
when `pat` does not occur: Rust `str::split(pat).next()`. -/
def firstSegment (pat : List Char) : List Char → List Char
  | [] => []
  | c :: rest =>
    if List.isPrefixOf pat (c :: rest) then [] else c :: firstSegment pat rest

/-- The scheme token `resolve_location_url` extracts: the part of the string
before the first "://" (`split("://").next().unwrap_or("")`). -/
def schemeOf (location : String) : String :=
  String.mk (firstSegment ([':', '/', '/']) location.toList)

/-- src/error.rs: `SignatureError`. -/
inductive SignatureError where
  | MissingHeader (nm : String)
  | InvalidTimestamp (ts : String)
  | TimestampExpired
  | SignatureMismatch
  deriving DecidableEq

/-- src/error.rs: `WebIdentityError`.  `UrlParse` carries the message of the
underlying `url::ParseError`. -/
inductive WebIdentityError where
  | UrlParse (msg : String)
  | UnsupportedProtocol (scheme : String)
  | MissingPublicKey
  | InvalidPublicKeyFormat (reason : String)
  | MissingDisplayName
  | Signature (e : SignatureError)
  | Crypto (msg : String)
  deriving DecidableEq

/-- src/sign.rs `hash_body`: hex-encoded SHA-256 of the body bytes.  `sha256`
is the external digest function. -/
def hash_body (sha256 : List Nat → List Nat) (body : List Nat) : String :=
  hexEncode (sha256 body)

/-- src/sign.rs `build_canonical_string`. -/
def build_canonical_string (method host path body_hash location timestamp : String) : String :=
  let clean_path := if path ≠ "/" then trimEndSlashes path else path
  toUppercase method ++ "\n" ++ host ++ "\n" ++ clean_path ++ "\n" ++
    body_hash ++ "\n" ++ location ++ "\n" ++ timestamp

/-- src/sign.rs `verify_signature`: length-check the key (`as_array::<u8,32>`),
parse it (`VerifyingKey::from_bytes`, modelled by the external predicate
`keyValid32`), length-check the signature (`as_array::<u8,64>`), then run the
cryptographic check (external predicate `verifyOk`); every failure is
`SignatureMismatch`. -/
def verify_signature (keyValid32 : List Nat → Bool)
    (verifyOk : List Nat → String → List Nat → Bool)
    (public_key : List Nat) (original : String) (signature : List Nat) :
    Except WebIdentityError Unit :=
  if public_key.length = 32 then
    if keyValid32 public_key then
      if signature.length = 64 then
        if verifyOk public_key original signature then Except.ok ()
        else Except.error (.Signature .SignatureMismatch)
      else Except.error (.Signature .SignatureMismatch)
    else Except.error (.Signature .SignatureMismatch)
  else Except.error (.Signature .SignatureMismatch)

/-- src/sign.rs `verify_request`.  `headers` is the `HeaderProvider`
(`get_header`), `now` the seconds since the Unix epoch at call time, and
`max_age` the maximum age in whole seconds (`Duration::as_secs`). -/
def verify_request (sha256 : List Nat → List Nat) (keyValid32 : List Nat → Bool)
    (verifyOk : List Nat → String → List Nat → Bool) (now : Nat)
    (http_method host path : String) (body : List Nat)
    (headers : String → Option String) (public_key_bytes : List Nat)
    (max_age : Nat) : Except WebIdentityError Unit :=
  match headers "WebIdentity-Location" with
  | none => Except.error (.Signature (.MissingHeader "WebIdentity-Location"))
  | some location =>
    match headers "WebIdentity-Timestamp" with
    | none => Except.error (.Signature (.MissingHeader "WebIdentity-Timestamp"))
    | some timestamp_str =>
      match headers "WebIdentity-Signature" with
      | none => Except.error (.Signature (.MissingHeader "WebIdentity-Signature"))
      | some signature_hex =>
        match parseU64 timestamp_str with
        | none => Except.error (.Signature (.InvalidTimestamp timestamp_str))
        | some timestamp =>
          if now - timestamp > max_age then
            Except.error (.Signature .TimestampExpired)
          else
            let body_hash := hash_body sha256 body
            let canonical_string :=
              build_canonical_string http_method host path body_hash location timestamp_str
            match hexDecode signature_hex with
            | none => Except.error (.Signature .SignatureMismatch)
            | some signature_bytes =>
              verify_signature keyValid32 verifyOk public_key_bytes
                canonical_string signature_bytes

/-- src/sign.rs `create_signed_headers`.  `signFn` is the external
`SigningKey::sign` applied to the canonical string, returning the 64 signature
bytes; `now` is the seconds since the Unix epoch at call time.  The returned
association list models the `HashMap` the function fills with three distinct
keys. -/
def create_signed_headers (sha256 : List Nat → List Nat)
    (signFn : String → List Nat) (now : Nat)
    (location http_method host path : String) (body : List Nat) :
    Except WebIdentityError (List (String × String)) :=
  let timestamp := toString now
  let body_hash := hash_body sha256 body
  let canonical_string :=
    build_canonical_string http_method host path body_hash location timestamp
  let signature_hex := hexEncode (signFn canonical_string)
  Except.ok [("WebIdentity-Location", location),
             ("WebIdentity-Timestamp", timestamp),
             ("WebIdentity-Signature", signature_hex)]

/-- The canonical string as the specification describes it: the newline-joined
sequence of uppercased method, host, path with trailing slash stripped except
when the path is exactly a lone slash, the body hash, the location verbatim and
the timestamp string. -/
def claimCanonicalString (method host path body_hash location timestamp : String) : String :=
  String.intercalate "\n"
    [toUppercase method, host,
     if path = "/" then path else trimEndSlashes path,
     body_hash, location, timestamp]

/-- C1: the canonical string built by both the signer (`create_signed_headers`)
and the verifier (`verify_request`) — both call `build_canonical_string` with
the hex-encoded SHA-256 of the body — is the newline-joined sequence of
uppercased method, host, trailing-slash-normalized path, body hash, location
and timestamp, in that order; the paths "/v1/messages/" and "/v1/messages"
yield identical canonical strings, and "/" stays "/". -/
theorem c1_canonical_string :
    ∀ (method host path body_hash location timestamp : String),
      build_canonical_string method host path body_hash location timestamp =
        claimCanonicalString method host path body_hash location timestamp
      ∧ (∀ (sha256 : List Nat → List Nat) (signFn : String → List Nat)
           (now : Nat) (body : List Nat),
          create_signed_headers sha256 signFn now location method host path body =
            Except.ok [("WebIdentity-Location", location),
                       ("WebIdentity-Timestamp", toString now),
                       ("WebIdentity-Signature",
                        hexEncode (signFn (claimCanonicalString method host path
                          (hexEncode (sha256 body)) location (toString now))))])
      ∧ build_canonical_string method host "/v1/messages/" body_hash location timestamp =
          build_canonical_string method host "/v1/messages" body_hash location timestamp
      ∧ build_canonical_string method host "/" body_hash location timestamp =
          String.intercalate "\n"
            [toUppercase method, host, "/", body_hash, location, timestamp] := by
  intro method host path body_hash location timestamp
  have hmain : ∀ (p bh ts : String),
      build_canonical_string method host p bh location ts =
        claimCanonicalString method host p bh location ts := by
    intro p bh ts
    by_cases hp : p = "/"
    · simp [build_canonical_string, claimCanonicalString, hp, String.intercalate,
            String.intercalate.go]
    · simp [build_canonical_string, claimCanonicalString, hp, String.intercalate,
            String.intercalate.go]
  refine ⟨hmain path body_hash timestamp, ?_, ?_, ?_⟩
  · intro sha256 signFn now body
    rw [show create_signed_headers sha256 signFn now location method host path body =
        Except.ok [("WebIdentity-Location", location),
                   ("WebIdentity-Timestamp", toString now),
                   ("WebIdentity-Signature",
                    hexEncode (signFn (build_canonical_string method host path
                      (hash_body sha256 body) location (toString now))))] from rfl]
    rw [hmain path (hash_body sha256 body) (toString now)]
    rfl
  · rw [hmain "/v1/messages/" body_hash timestamp,
        hmain "/v1/messages" body_hash timestamp]
    rfl
  · rw [hmain "/" body_hash timestamp]
    rfl

/-- C9: `create_signed_headers` always succeeds and the returned map holds
exactly the three WebIdentity headers; despite its `Result` return type it has
no reachable error branch. -/
theorem c9_create_signed_headers_total :
    ∀ (sha256 : List Nat → List Nat) (signFn : String → List Nat) (now : Nat)
      (location http_method host path : String) (body : List Nat),
      ∃ hdrs, create_signed_headers sha256 signFn now location http_method host path body =
          Except.ok hdrs
        ∧ hdrs.map Prod.fst =
            ["WebIdentity-Location", "WebIdentity-Timestamp", "WebIdentity-Signature"] := by
  intro sha256 signFn now location http_method host path body
  exact ⟨_, rfl, rfl⟩

/-- Lift the result of the external `Url::parse` into `WebIdentityError`, as
the `#[from]` conversion in error.rs does. -/
def liftParse {U : Type} (r : Except String U) : Except WebIdentityError U :=
  match r with
  | Except.ok u => Except.ok u
  | Except.error e => Except.error (.UrlParse e)

/-- src/resolve.rs `resolve_location_url`.  `parse` is the external
`Url::parse`, `U` the url crate's URL type. -/
def resolve_location_url {U : Type} (parse : String → Except String U)
    (location : String) : Except WebIdentityError U :=
  if containsSub location "://" then
    let scheme := schemeOf location
    if scheme = "http" ∨ scheme = "https" then liftParse (parse location)
    else Except.error (.UnsupportedProtocol scheme)
  else liftParse (parse ("https://" ++ location))

/-- C4: `resolve_location_url` takes the token before "://" as the scheme and
accepts only "http" and "https", failing with `UnsupportedProtocol` carrying
the scheme otherwise; without "://" it prepends "https://" before parsing; so
"example.com" parses as "https://example.com", "http://example.com" parses
unchanged and "ftp://example.com" fails with UnsupportedProtocol "ftp". -/
theorem c4_resolve_location_url :
    ∀ (U : Type) (parse : String → Except String U),
      (∀ location,
        containsSub location "://" = true →
        schemeOf location ≠ "http" →
        schemeOf location ≠ "https" →
        resolve_location_url parse location =
          Except.error (.UnsupportedProtocol (schemeOf location)))
      ∧ (∀ location,
          containsSub location "://" = false →
          resolve_location_url parse location = liftParse (parse ("https://" ++ location)))
      ∧ resolve_location_url parse "example.com" = liftParse (parse "https://example.com")
      ∧ resolve_location_url parse "http://example.com" = liftParse (parse "http://example.com")
      ∧ resolve_location_url parse "ftp://example.com" =
          Except.error (.UnsupportedProtocol "ftp") := by
  intro U parse
  refine ⟨?_, ?_, rfl, rfl, rfl⟩
  · intro location hc h1 h2
    simp only [resolve_location_url, hc, if_true]
    rw [if_neg]
    rintro (h | h)
    · exact h1 h
    · exact h2 h
  · intro location hc
    simp [resolve_location_url, hc]

/-- Witness for C4 at concrete inputs: a scheme other than http or https is
rejected with `UnsupportedProtocol`. -/
theorem c4_resolve_location_url_witness :
    resolve_location_url (fun s => Except.ok s) "gopher://a" =
      Except.error (.UnsupportedProtocol "gopher") := by
  have h := (c4_resolve_location_url String (fun s => Except.ok s)).1 "gopher://a"
    (by decide) (by decide) (by decide)
  simpa using h

/-- C10: the scheme comparison is case-sensitive, so "HTTP://example.com",
whose scheme differs from "http" only in letter case, fails with
UnsupportedProtocol "HTTP". -/
theorem c10_scheme_case_sensitive :
    ∀ (U : Type) (parse : String → Except String U),
      resolve_location_url parse "HTTP://example.com" =
        Except.error (.UnsupportedProtocol "HTTP")
      ∧ toUppercase "http" = "HTTP" := by
  intro U parse
  exact ⟨rfl, rfl⟩

/-- Every error `verify_signature` can return is `SignatureMismatch`. -/
theorem verify_signature_error_eq (keyValid32 : List Nat → Bool)
    (verifyOk : List Nat → String → List Nat → Bool)
    (public_key : List Nat) (original : String) (signature : List Nat)
    (e : WebIdentityError)
    (h : verify_signature keyValid32 verifyOk public_key original signature =
      Except.error e) :
    e = WebIdentityError.Signature SignatureError.SignatureMismatch := by
  unfold verify_signature at h
  repeat' split at h
  all_goals first
    | exact (Except.error.inj h).symm
    | exact Except.noConfusion h

/-- C5: with the three headers present and the timestamp fresh, a failing hex
decode of the signature, a wrong signature or key length, a malformed key, and
a failing cryptographic check all produce `SignatureMismatch`, and no other
error kind can be returned past that point. -/
theorem c5_verify_errors_collapse (sha256 : List Nat → List Nat)
    (keyValid32 : List Nat → Bool)
    (verifyOk : List Nat → String → List Nat → Bool) (now : Nat)
    (http_method host path : String) (body : List Nat)
    (headers : String → Option String) (pk : List Nat) (max_age : Nat)
    (loc ts sig : String) (t : Nat)
    (hloc : headers "WebIdentity-Location" = some loc)
    (hts : headers "WebIdentity-Timestamp" = some ts)
    (hsig : headers "WebIdentity-Signature" = some sig)
    (hparse : parseU64 ts = some t)
    (hfresh : now - t ≤ max_age) :
    (hexDecode sig = none →
      verify_request sha256 keyValid32 verifyOk now http_method host path body
          headers pk max_age =
        Except.error (.Signature .SignatureMismatch))
    ∧ (∀ sb, hexDecode sig = some sb →
        (pk.length ≠ 32 ∨ keyValid32 pk = false ∨ sb.length ≠ 64 ∨
         verifyOk pk (build_canonical_string http_method host path
           (hash_body sha256 body) loc ts) sb = false) →
        verify_request sha256 keyValid32 verifyOk now http_method host path body
            headers pk max_age =
          Except.error (.Signature .SignatureMismatch))
    ∧ (∀ e, verify_request sha256 keyValid32 verifyOk now http_method host path body
          headers pk max_age = Except.error e →
        e = WebIdentityError.Signature SignatureError.SignatureMismatch) := by
  have key : verify_request sha256 keyValid32 verifyOk now http_method host path body
      headers pk max_age =
      (match hexDecode sig with
       | none => Except.error (.Signature .SignatureMismatch)
       | some sb =>
         verify_signature keyValid32 verifyOk pk
           (build_canonical_string http_method host path (hash_body sha256 body) loc ts)
           sb) := by
    simp only [verify_request, hloc, hts, hsig, hparse]
    rw [if_neg (by omega : ¬ now - t > max_age)]
  refine ⟨?_, ?_, ?_⟩
  · intro hnone
    rw [key, hnone]
  · intro sb hsb hbad
    rw [key, hsb]
    rcases hbad with h1 | h1 | h1 | h1 <;> simp [verify_signature, h1]
  · intro e he
    rw [key] at he
    cases hd : hexDecode sig with
    | none =>
      rw [hd] at he
      exact (Except.error.inj he).symm
    | some sb =>
      rw [hd] at he
      exact verify_signature_error_eq keyValid32 verifyOk pk _ sb e he

/-- Header map used by the witnesses: location and timestamp are well formed,
but the asserted signature is not valid hex. -/
def cHeadersBadSig : String → Option String := fun n =>
  if n = "WebIdentity-Location" then some "example.com"
  else if n = "WebIdentity-Timestamp" then some "100"
  else if n = "WebIdentity-Signature" then some "zz" else none

/-- Witness for C5: a signature header that is not valid hex yields
`SignatureMismatch` at a concrete input. -/
theorem c5_verify_errors_collapse_witness :
    verify_request (fun _ => List.replicate 32 0) (fun _ => true) (fun _ _ _ => true)
      100 "post" "api.example.com" "/v1" [] cHeadersBadSig (List.replicate 32 0) 60 =
      Except.error (.Signature .SignatureMismatch) :=
  (c5_verify_errors_collapse (fun _ => List.replicate 32 0) (fun _ => true)
    (fun _ _ _ => true) 100 "post" "api.example.com" "/v1" [] cHeadersBadSig
    (List.replicate 32 0) 60 "example.com" "100" "zz" 100 rfl rfl rfl (by decide)
    (by decide)).1 rfl

/-- C6: with the three headers present and the timestamp parsing to `t`, the
freshness check fails with `TimestampExpired` exactly when `now - t` computed
with saturating subtraction exceeds `max_age`; a timestamp strictly in the
future is never rejected as expired or as invalid by this check. -/
theorem c6_freshness_saturating (sha256 : List Nat → List Nat)
    (keyValid32 : List Nat → Bool)
    (verifyOk : List Nat → String → List Nat → Bool) (now : Nat)
    (http_method host path : String) (body : List Nat)
    (headers : String → Option String) (pk : List Nat) (max_age : Nat)
    (loc ts sig : String) (t : Nat)
    (hloc : headers "WebIdentity-Location" = some loc)
    (hts : headers "WebIdentity-Timestamp" = some ts)
    (hsig : headers "WebIdentity-Signature" = some sig)
    (hparse : parseU64 ts = some t) :
    ((verify_request sha256 keyValid32 verifyOk now http_method host path body
        headers pk max_age = Except.error (.Signature .TimestampExpired)) ↔
      max_age < now - t)
    ∧ (now < t →
        verify_request sha256 keyValid32 verifyOk now http_method host path body
          headers pk max_age ≠ Except.error (.Signature .TimestampExpired))
    ∧ verify_request sha256 keyValid32 verifyOk now http_method host path body
        headers pk max_age ≠ Except.error (.Signature (.InvalidTimestamp ts)) := by
  have key : verify_request sha256 keyValid32 verifyOk now http_method host path body
      headers pk max_age =
      (if max_age < now - t then Except.error (.Signature .TimestampExpired)
       else
        match hexDecode sig with
        | none => Except.error (.Signature .SignatureMismatch)
        | some sb =>
          verify_signature keyValid32 verifyOk pk
            (build_canonical_string http_method host path (hash_body sha256 body) loc ts)
            sb) := by
    simp only [verify_request, hloc, hts, hsig, hparse]
  have hiff : (verify_request sha256 keyValid32 verifyOk now http_method host path body
      headers pk max_age = Except.error (.Signature .TimestampExpired)) ↔
      max_age < now - t := by
    constructor
    · intro hres
      by_contra hlt
      rw [key, if_neg hlt] at hres
      cases hd : hexDecode sig with
      | none =>
        rw [hd] at hres
        simp at hres
      | some sb =>
        rw [hd] at hres
        have h := verify_signature_error_eq keyValid32 verifyOk pk _ sb _ hres
        simp at h
    · intro hlt
      rw [key, if_pos hlt]
  refine ⟨hiff, ?_, ?_⟩
  · intro hfut hres
    have h := hiff.mp hres
    omega
  · intro hres
    rw [key] at hres
    by_cases hlt : max_age < now - t
    · rw [if_pos hlt] at hres
      simp at hres
    · rw [if_neg hlt] at hres
      cases hd : hexDecode sig with
      | none =>
        rw [hd] at hres
        simp at hres
      | some sb =>
        rw [hd] at hres
        have h := verify_signature_error_eq keyValid32 verifyOk pk _ sb _ hres
        simp at h

/-- Header map with a stale timestamp for the C6 witness. -/
def cHeadersStale : String → Option String := fun n =>
  if n = "WebIdentity-Location" then some "example.com"
  else if n = "WebIdentity-Timestamp" then some "0"
  else if n = "WebIdentity-Signature" then some "00" else none

/-- Witness for C6: with now = 100, timestamp 0 and max_age 10 the request is
rejected with `TimestampExpired`. -/
theorem c6_freshness_saturating_witness :
    verify_request (fun _ => List.replicate 32 0) (fun _ => true) (fun _ _ _ => true)
      100 "post" "api.example.com" "/v1" [] cHeadersStale (List.replicate 32 0) 10 =
      Except.error (.Signature .TimestampExpired) :=
  ((c6_freshness_saturating (fun _ => List.replicate 32 0) (fun _ => true)
    (fun _ _ _ => true) 100 "post" "api.example.com" "/v1" [] cHeadersStale
    (List.replicate 32 0) 10 "example.com" "0" "00" 0 rfl rfl rfl
    (by decide)).1).mpr (by decide)

/-- Model of the url crate's `Url` as far as identity.rs inspects it:
`host_str()` and `path()`. -/
structure Url where
  host : Option String
  path : String
  deriving DecidableEq

/-- src/identity.rs `PK_PREFIX`. -/
def pkTag : String := "ed25519-pub:"

/-- src/identity.rs `Identity`. -/
structure Identity where
  id : String
  public_key : List Nat
  display_name : String
  avatar : Option Url
  description : Option String
  location_url : Url
  location : String
  deriving DecidableEq

/-- src/identity.rs `RawIdentityData`: the per-field accumulator the element
handlers fill during the single HTML pass. -/
structure RawIdentityData where
  public_key : Option String := none
  display_name : Option String := none
  author : Option String := none
  og_author : Option String := none
  og_title : Option String := none
  avatar : Option String := none
  og_image : Option String := none
  favicon : Option String := none
  description : Option String := none
  og_description : Option String := none
  deriving DecidableEq

/-- One element event from the HTML tokenizer: a `meta` element with its
`name`, `property` and `content` attributes, or a `link` element with its
`rel` and `href` attributes.  These are exactly the elements the handlers in
`get_identity` subscribe to, in document order. -/
inductive HtmlEvent where
  | meta (nameAttr propAttr contentAttr : Option String)
  | link (relAttr hrefAttr : Option String)
  deriving DecidableEq

/-- The `meta` and `link` element handlers of src/identity.rs applied to one
event: for `meta`, the key is the `property` attribute, falling back to
`name`, and each recognized key stores the `content` into its slot (note that
both "identity:description" and plain "description" store into the single
`description` slot); for `link`, a rel of "icon" or "shortcut icon" stores
`href` as the favicon. -/
def applyEvent (d : RawIdentityData) : HtmlEvent → RawIdentityData
  | .meta nameAttr propAttr contentAttr =>
    match contentAttr with
    | none => d
    | some content =>
      match propAttr.or nameAttr with
      | none => d
      | some k =>
        if k = "identity:public-key" then { d with public_key := some content }
        else if k = "identity:display-name" then { d with display_name := some content }
        else if k = "identity:avatar" then { d with avatar := some content }
        else if k = "identity:description" then { d with description := some content }
        else if k = "author" then { d with author := some content }
        else if k = "og:author" then { d with og_author := some content }
        else if k = "og:title" then { d with og_title := some content }
        else if k = "og:image" then { d with og_image := some content }
        else if k = "og:description" then { d with og_description := some content }
        else if k = "description" then { d with description := some content }
        else d
  | .link relAttr hrefAttr =>
    match relAttr with
    | none => d
    | some rel =>
      if rel = "icon" ∨ rel = "shortcut icon" then
        match hrefAttr with
        | none => d
        | some href => { d with favicon := some href }
      else d

/-- The single pass of the `HtmlRewriter` over the document. -/
def extractRaw (events : List HtmlEvent) : RawIdentityData :=
  events.foldl applyEvent {}

/-- The location string derived in `get_identity`: host (or "" without one)
followed by the path, with trailing slashes trimmed. -/
def location_of (source_url : Url) : String :=
  trimEndSlashes (source_url.host.getD "" ++ source_url.path)

/-- The public-key validation block of `get_identity` (identity.rs lines
93-110): the value must be present, carry the `pkTag` prefix, decode as hex,
have length 32 and parse as an Ed25519 verifying key (`keyValid32`). -/
def checkPublicKey (keyValid32 : List Nat → Bool) (pk_field : Option String) :
    Except WebIdentityError (List Nat) :=
  match pk_field with
  | none => Except.error .MissingPublicKey
  | some pk_hex =>
    if strStartsWith pk_hex pkTag then
      match hexDecode (strDrop pk_hex pkTag.length) with
      | none => Except.error (.InvalidPublicKeyFormat "Invalid hex encoding.")
      | some public_key_bytes =>
        if public_key_bytes.length = 32 then
          if keyValid32 public_key_bytes then Except.ok public_key_bytes
          else Except.error (.InvalidPublicKeyFormat "Not a valid Ed25519 public key.")
        else Except.error (.InvalidPublicKeyFormat "Wrong key size")
    else
      Except.error (.InvalidPublicKeyFormat
        "This server only supports keys that start with ed25519-pub:.")

/-- The construction of the `Identity` value in `get_identity` once the public
key has been validated.  `sha256` derives the id, `urlJoin` is the external
`Url::join` (used only for the avatar). -/
def mkIdentity (sha256 : List Nat → List Nat) (urlJoin : Url → String → Option Url)
    (source_url : Url) (data : RawIdentityData) (public_key_bytes : List Nat) :
    Identity :=
  let id := hexEncode (sha256 public_key_bytes)
  let location := location_of source_url
  let display_name :=
    (((((data.display_name.or data.author).or data.og_author).or
        data.og_title).filter (fun s => !s.isEmpty)).getD location)
  let avatar :=
    match (data.avatar.or data.og_image).or data.favicon with
    | some href => urlJoin source_url href
    | none => none
  let description := data.description.or data.og_description
  { id := id, public_key := public_key_bytes, display_name := display_name,
    avatar := avatar, description := description, location_url := source_url,
    location := location }

/-- src/identity.rs `get_identity`, over the element events of the document. -/
def get_identity (sha256 : List Nat → List Nat) (keyValid32 : List Nat → Bool)
    (urlJoin : Url → String → Option Url) (source_url : Url)
    (events : List HtmlEvent) : Except WebIdentityError Identity :=
  let data := extractRaw events
  match checkPublicKey keyValid32 data.public_key with
  | Except.error e => Except.error e
  | Except.ok public_key_bytes =>
    Except.ok (mkIdentity sha256 urlJoin source_url data public_key_bytes)

/-- Successful public-key validation yields 32 structurally valid bytes. -/
theorem checkPublicKey_ok_elim (keyValid32 : List Nat → Bool)
    (pk_field : Option String) (bytes : List Nat)
    (h : checkPublicKey keyValid32 pk_field = Except.ok bytes) :
    bytes.length = 32 ∧ keyValid32 bytes = true := by
  unfold checkPublicKey at h
  repeat' split at h
  all_goals first
    | (cases h; constructor <;> assumption)
    | exact Except.noConfusion h

/-- Every error of the public-key validation block is `MissingPublicKey` (for
an absent value) or `InvalidPublicKeyFormat`. -/
theorem checkPublicKey_error_elim (keyValid32 : List Nat → Bool)
    (pk_field : Option String) (e : WebIdentityError)
    (h : checkPublicKey keyValid32 pk_field = Except.error e) :
    (pk_field = none ∧ e = WebIdentityError.MissingPublicKey) ∨
      ∃ s, e = WebIdentityError.InvalidPublicKeyFormat s := by
  unfold checkPublicKey at h
  split at h
  · exact Or.inl ⟨rfl, (Except.error.inj h).symm⟩
  · repeat' split at h
    all_goals first
      | exact Or.inr ⟨_, (Except.error.inj h).symm⟩
      | exact Except.noConfusion h

/-- Inversion for success of `get_identity`: the accumulated public-key value
validates to `bytes` and the identity is `mkIdentity` at those bytes. -/
theorem get_identity_ok_elim (sha256 : List Nat → List Nat)
    (keyValid32 : List Nat → Bool) (urlJoin : Url → String → Option Url)
    (source_url : Url) (events : List HtmlEvent) (ident : Identity)
    (h : get_identity sha256 keyValid32 urlJoin source_url events = Except.ok ident) :
    ∃ bytes, checkPublicKey keyValid32 (extractRaw events).public_key = Except.ok bytes
      ∧ ident = mkIdentity sha256 urlJoin source_url (extractRaw events) bytes := by
  simp only [get_identity] at h
  split at h
  · exact Except.noConfusion h
  · exact ⟨_, by assumption, (Except.ok.inj h).symm⟩

/-- A public-key value that is present but fails the prefix, hex, length or
key-validity requirement makes `checkPublicKey` fail with
`InvalidPublicKeyFormat`. -/
theorem checkPublicKey_some_err (keyValid32 : List Nat → Bool) (v : String)
    (hbad : strStartsWith v pkTag = false ∨
      hexDecode (strDrop v pkTag.length) = none ∨
      (∀ bs, hexDecode (strDrop v pkTag.length) = some bs →
        bs.length ≠ 32 ∨ keyValid32 bs = false)) :
    ∃ s, checkPublicKey keyValid32 (some v) =
      Except.error (WebIdentityError.InvalidPublicKeyFormat s) := by
  unfold checkPublicKey
  by_cases hsw : strStartsWith v pkTag = true
  · cases hd : hexDecode (strDrop v pkTag.length) with
    | none => exact ⟨"Invalid hex encoding.", by simp [hsw, hd]⟩
    | some bs =>
      rcases hbad with h1 | h1 | h1
      · rw [hsw] at h1
        exact absurd h1 (by simp)
      · rw [hd] at h1
        exact absurd h1 (by simp)
      · by_cases hlen : bs.length = 32
        · rcases h1 bs hd with h2 | h2
          · exact absurd hlen h2
          · exact ⟨"Not a valid Ed25519 public key.", by simp [hsw, hd, hlen, h2]⟩
        · exact ⟨"Wrong key size", by simp [hsw, hd, hlen]⟩
  · exact ⟨"This server only supports keys that start with ed25519-pub:.",
      by simp [hsw]⟩

/-- C2: when `get_identity` succeeds the public key is exactly 32 bytes and a
structurally valid Ed25519 verifying key; an absent `identity:public-key`
value gives `MissingPublicKey`, and a present value with a missing prefix,
invalid hex, wrong decoded length or invalid key gives
`InvalidPublicKeyFormat`. -/
theorem c2_public_key_invariant (sha256 : List Nat → List Nat)
    (keyValid32 : List Nat → Bool) (urlJoin : Url → String → Option Url)
    (source_url : Url) (events : List HtmlEvent) :
    (∀ ident, get_identity sha256 keyValid32 urlJoin source_url events = Except.ok ident →
      ident.public_key.length = 32 ∧ keyValid32 ident.public_key = true)
    ∧ ((extractRaw events).public_key = none →
        get_identity sha256 keyValid32 urlJoin source_url events =
          Except.error WebIdentityError.MissingPublicKey)
    ∧ (∀ v, (extractRaw events).public_key = some v →
        (strStartsWith v pkTag = false ∨
         hexDecode (strDrop v pkTag.length) = none ∨
         (∀ bs, hexDecode (strDrop v pkTag.length) = some bs →
           bs.length ≠ 32 ∨ keyValid32 bs = false)) →
        ∃ s, get_identity sha256 keyValid32 urlJoin source_url events =
          Except.error (WebIdentityError.InvalidPublicKeyFormat s)) := by
  refine ⟨?_, ?_, ?_⟩
  · intro ident h
    obtain ⟨bytes, hck, hident⟩ :=
      get_identity_ok_elim sha256 keyValid32 urlJoin source_url events ident h
    obtain ⟨hlen, hval⟩ := checkPublicKey_ok_elim keyValid32 _ bytes hck
    subst hident
    simp only [mkIdentity]
    exact ⟨hlen, hval⟩
  · intro hnone
    simp only [get_identity, hnone]
    rfl
  · intro v hv hbad
    obtain ⟨s, hs⟩ := checkPublicKey_some_err keyValid32 v hbad
    refine ⟨s, ?_⟩
    simp only [get_identity, hv, hs]

/-- Concrete digest stub for witnesses: the theorems hold for every digest. -/
def zeroSha : List Nat → List Nat := fun _ => List.replicate 32 0

/-- Concrete key validator for witnesses that accepts every 32-byte value. -/
def anyKeyOk : List Nat → Bool := fun _ => true

/-- Concrete URL join stub for witnesses. -/
def noJoin : Url → String → Option Url := fun _ _ => none

/-- Concrete source URL for witnesses. -/
def exUrl : Url := { host := some "example.com", path := "/" }

/-- A well-formed public-key value: the prefix followed by 64 hex digits. -/
def goodPk : String :=
  "ed25519-pub:0000000000000000000000000000000000000000000000000000000000000000"

/-- Witness for C2: a document with no `identity:public-key` value fails with
`MissingPublicKey`. -/
theorem c2_public_key_invariant_witness :
    get_identity zeroSha anyKeyOk noJoin exUrl [] =
      Except.error WebIdentityError.MissingPublicKey :=
  (c2_public_key_invariant zeroSha anyKeyOk noJoin exUrl []).2.1 rfl

/-- C8: `get_identity` can only fail with `MissingPublicKey` or
`InvalidPublicKeyFormat`; in particular `MissingDisplayName` is never
returned. -/
theorem c8_error_kinds (sha256 : List Nat → List Nat)
    (keyValid32 : List Nat → Bool) (urlJoin : Url → String → Option Url)
    (source_url : Url) (events : List HtmlEvent) (e : WebIdentityError)
    (h : get_identity sha256 keyValid32 urlJoin source_url events = Except.error e) :
    (e = WebIdentityError.MissingPublicKey ∨
      ∃ s, e = WebIdentityError.InvalidPublicKeyFormat s)
    ∧ e ≠ WebIdentityError.MissingDisplayName := by
  simp only [get_identity] at h
  split at h
  · rename_i e2 heq
    have he2 := Except.error.inj h
    subst he2
    rcases checkPublicKey_error_elim keyValid32 _ _ heq with ⟨_, h2⟩ | ⟨s, hs⟩
    · subst h2
      exact ⟨Or.inl rfl, by simp⟩
    · subst hs
      exact ⟨Or.inr ⟨s, rfl⟩, by simp⟩
  · exact Except.noConfusion h

/-- Witness for C8 at a concrete failing document. -/
theorem c8_error_kinds_witness :
    (WebIdentityError.MissingPublicKey = WebIdentityError.MissingPublicKey ∨
      ∃ s, WebIdentityError.MissingPublicKey = WebIdentityError.InvalidPublicKeyFormat s)
    ∧ WebIdentityError.MissingPublicKey ≠ WebIdentityError.MissingDisplayName :=
  c8_error_kinds zeroSha anyKeyOk noJoin exUrl [] WebIdentityError.MissingPublicKey rfl

/-- Document events with a valid public key, an empty `identity:display-name`
and a non-empty `author`. -/
def evsEmptyName : List HtmlEvent :=
  [ HtmlEvent.meta (some "identity:public-key") none (some goodPk),
    HtmlEvent.meta (some "identity:display-name") none (some ""),
    HtmlEvent.meta (some "author") none (some "Bob") ]

/-- Counterexample for C3: on a document whose `identity:display-name` is
empty but whose `author` is "Bob", the claim predicts the display name "Bob";
the code filters for non-emptiness only once, after the whole fallback chain,
so the empty display name wins the chain, is then discarded, and the display
name falls back to the location string "example.com". -/
theorem c3_display_name_cex :
    Except.map (fun i => i.display_name)
        (get_identity zeroSha anyKeyOk noJoin exUrl evsEmptyName) =
      Except.ok "example.com"
    ∧ ¬ (Except.map (fun i => i.display_name)
        (get_identity zeroSha anyKeyOk noJoin exUrl evsEmptyName) =
      Except.ok "Bob") := by
  have h1 : Except.map (fun i => i.display_name)
      (get_identity zeroSha anyKeyOk noJoin exUrl evsEmptyName) =
      Except.ok "example.com" := rfl
  refine ⟨h1, fun hcontra => ?_⟩
  exact absurd (Except.ok.inj (h1.symm.trans hcontra)) (by decide)

/-- C3 (amended): the display name is the first *present* value in the chain
`identity:display-name`, `author`, `og:author`, `og:title`; only that single
winning value is tested for emptiness, and if it is empty — or the chain is
empty — the display name is the derived location string. -/
theorem c3_display_name_amended (sha256 : List Nat → List Nat)
    (keyValid32 : List Nat → Bool) (urlJoin : Url → String → Option Url)
    (source_url : Url) (events : List HtmlEvent) (ident : Identity)
    (h : get_identity sha256 keyValid32 urlJoin source_url events = Except.ok ident) :
    ident.display_name =
      (match (((extractRaw events).display_name.or
          (extractRaw events).author).or
          (extractRaw events).og_author).or
          (extractRaw events).og_title with
       | some s => if s.isEmpty then location_of source_url else s
       | none => location_of source_url) := by
  obtain ⟨bytes, hck, hident⟩ :=
    get_identity_ok_elim sha256 keyValid32 urlJoin source_url events ident h
  subst hident
  simp only [mkIdentity]
  cases hchain : (((extractRaw events).display_name.or
      (extractRaw events).author).or
      (extractRaw events).og_author).or
      (extractRaw events).og_title with
  | none => simp [Option.filter]
  | some s =>
    by_cases he : s.isEmpty
    · simp [Option.filter, he]
    · simp [Option.filter, he]

/-- Document events holding only a valid public key. -/
def evsGood : List HtmlEvent :=
  [ HtmlEvent.meta (some "identity:public-key") none (some goodPk) ]

/-- The identity `get_identity` returns on `evsGood`. -/
def okIdent : Identity :=
  mkIdentity zeroSha noJoin exUrl (extractRaw evsGood) (List.replicate 32 0)

/-- Witness for C3 (amended) at a concrete successful document. -/
theorem c3_display_name_amended_witness :
    okIdent.display_name =
      (match (((extractRaw evsGood).display_name.or
          (extractRaw evsGood).author).or
          (extractRaw evsGood).og_author).or
          (extractRaw evsGood).og_title with
       | some s => if s.isEmpty then location_of exUrl else s
       | none => location_of exUrl) :=
  c3_display_name_amended zeroSha anyKeyOk noJoin exUrl evsGood okIdent rfl

/-- Document events where `identity:description` is set to "A" and the plain
`description` key is later set to "B". -/
def evsDesc : List HtmlEvent :=
  [ HtmlEvent.meta (some "identity:public-key") none (some goodPk),
    HtmlEvent.meta none (some "identity:description") (some "A"),
    HtmlEvent.meta (some "description") none (some "B") ]

/-- Counterexample for C7: the plain `description` key is *not* recorded under
its own key — it shares the single `description` slot with
`identity:description` — so a later plain `description` of "B" overwrites the
earlier `identity:description` of "A" and the resulting description is "B",
where the claim predicts "A". -/
theorem c7_description_cex :
    Except.map (fun i => i.description)
        (get_identity zeroSha anyKeyOk noJoin exUrl evsDesc) =
      Except.ok (some "B")
    ∧ ¬ (Except.map (fun i => i.description)
        (get_identity zeroSha anyKeyOk noJoin exUrl evsDesc) =
      Except.ok (some "A")) := by
  have h1 : Except.map (fun i => i.description)
      (get_identity zeroSha anyKeyOk noJoin exUrl evsDesc) =
      Except.ok (some "B") := rfl
  refine ⟨h1, fun hcontra => ?_⟩
  exact absurd (Except.ok.inj (h1.symm.trans hcontra)) (by decide)

/-- C7 (amended): the description is the first present value among the shared
`description` slot — which both `identity:description` and the plain
`description` key write, later occurrences overwriting earlier ones — and
`og:description`, absent when neither was recorded. -/
theorem c7_description_amended (sha256 : List Nat → List Nat)
    (keyValid32 : List Nat → Bool) (urlJoin : Url → String → Option Url)
    (source_url : Url) (events : List HtmlEvent) (ident : Identity)
    (h : get_identity sha256 keyValid32 urlJoin source_url events = Except.ok ident) :
    ident.description =
      ((extractRaw events).description).or ((extractRaw events).og_description)
    ∧ (∀ d nameAttr content,
        applyEvent d (HtmlEvent.meta nameAttr (some "identity:description") (some content)) =
          { d with description := some content })
    ∧ (∀ d content,
        applyEvent d (HtmlEvent.meta (some "description") none (some content)) =
          { d with description := some content }) := by
  obtain ⟨bytes, hck, hident⟩ :=
    get_identity_ok_elim sha256 keyValid32 urlJoin source_url events ident h
  subst hident
  refine ⟨?_, ?_, ?_⟩
  · simp only [mkIdentity]
  · intro d nameAttr content
    rfl
  · intro d content
    rfl

/-- Witness for C7 (amended) at a concrete successful document. -/
theorem c7_description_amended_witness :
    okIdent.description =
      ((extractRaw evsGood).description).or ((extractRaw evsGood).og_description) :=
  (c7_description_amended zeroSha anyKeyOk noJoin exUrl evsGood okIdent rfl).1
